import Mathlib

/-!
Verification of the cache-item lifecycle and store-façade contract of the
distributed-cache repository.

The development shallowly embeds:
* the item model from `pkg/models` (the `CacheItem` struct with
  `NewCacheItem`, `IsExpired`, `RemainingTTL`);
* the façade from `internal/cache/redis_cache.go` (`RedisCache.Set`, `Get`,
  `Delete`, `SetMultiple`, `GetMultiple`, `Expire`);
* the TTL-defaulting logic of `internal/handlers` (`CacheHandler.SetItem`,
  `CacheHandler.SetMultiple`).

Timestamps and durations are integers (nanoseconds), passed explicitly where
the Go code calls `time.Now()`.  The Redis backing store is modelled as an
association list from keys to raw stored bytes together with the
backend-level absolute expiry that Redis keeps for the key.  Transport-level
failures of individual backend calls are driven by an explicit `Transport`
record of failure flags, so theorems can quantify over whether a given
backend round trip fails.
-/

set_option autoImplicit false

/-- The payload stored in a cache item.  In Go the field is `interface{}`;
values arriving through the JSON API are null, booleans, numbers or strings
(the structured cases collapse to these for the properties at stake), and
`vchan` stands for a Go value (channel, function, ...) on which
`json.Marshal` fails. -/
inductive GoValue where
  | vnull : GoValue
  | vbool : Bool → GoValue
  | vnum : Int → GoValue
  | vstr : String → GoValue
  | vchan : Nat → GoValue
deriving Repr, DecidableEq

/-- Whether `json.Marshal` succeeds on the value. -/
def GoValue.serializable : GoValue → Bool
  | .vchan _ => false
  | _ => true

/-- The `CacheItem` struct from `pkg/models`: key, payload, requested ttl, creation and
expiry timestamps (nanoseconds). -/
structure CacheItem where
  Key : String
  Value : GoValue
  TTL : Int
  CreatedAt : Int
  ExpiresAt : Int
deriving Repr, DecidableEq

/-- Embedding of `models.NewCacheItem`: `CreatedAt = now`, `ExpiresAt = now + ttl`. -/
def NewCacheItem (key : String) (value : GoValue) (ttl : Int) (now : Int) : CacheItem :=
  { Key := key, Value := value, TTL := ttl, CreatedAt := now, ExpiresAt := now + ttl }

/-- Embedding of `CacheItem.IsExpired`: `time.Now().After(ci.ExpiresAt)`, i.e. the current
time is strictly after the expiry timestamp. -/
def CacheItem.IsExpired (ci : CacheItem) (now : Int) : Bool :=
  decide (ci.ExpiresAt < now)

/-- Embedding of `CacheItem.RemainingTTL`: `0` once expired, otherwise
`time.Until(ci.ExpiresAt)`. -/
def CacheItem.RemainingTTL (ci : CacheItem) (now : Int) : Int :=
  if ci.IsExpired now then 0 else ci.ExpiresAt - now

/-- Raw bytes held by the backing store under a key: either the JSON encoding
of a marshalled `CacheItem`, or bytes that do not unmarshal to one. -/
inductive RawData where
  | enc : CacheItem → RawData
  | junk : String → RawData
deriving Repr, DecidableEq

/-- Model of `json.Marshal` on a cache item: fails exactly when the payload cannot be
encoded. -/
def jsonMarshal (ci : CacheItem) : Option RawData :=
  if ci.Value.serializable then some (RawData.enc ci) else none

/-- Model of `json.Unmarshal` of stored bytes into a `CacheItem`. -/
def jsonUnmarshal : RawData → Option CacheItem
  | .enc ci => some ci
  | .junk _ => none

/-- One key's state in the backing store: the stored bytes and the
backend-level absolute expiry Redis keeps for the key (`none`: no expiry). -/
structure RedisEntry where
  data : RawData
  expireAt : Option Int
deriving Repr, DecidableEq

/-- The backing store: an association list from keys to entries. -/
abbrev RedisDB := List (String × RedisEntry)

/-- A stored entry is still visible at `now` unless its backend expiry has
been reached (Redis drops the key once `now` reaches `expireAt`). -/
def RedisEntry.alive (e : RedisEntry) (now : Int) : Bool :=
  match e.expireAt with
  | none => true
  | some t => decide (now < t)

/-- Association-list lookup of the stored entry, ignoring backend expiry. -/
def rawFind (db : RedisDB) (key : String) : Option RedisEntry :=
  (db.find? (fun p => p.1 == key)).map (fun p => p.2)

/-- The entry Redis reports for `key` at time `now` (`none` once the backend
expiry has passed or the key was never stored). -/
def redisEntry? (db : RedisDB) (now : Int) (key : String) : Option RedisEntry :=
  match rawFind db key with
  | none => none
  | some e => if e.alive now then some e else none

/-- The raw bytes a Redis `GET`/`MGET` returns for `key` at time `now`. -/
def redisLookup (db : RedisDB) (now : Int) (key : String) : Option RawData :=
  (redisEntry? db now key).map (fun e => e.data)

/-- Redis `DEL key`. -/
def redisDel (db : RedisDB) (key : String) : RedisDB :=
  db.filter (fun p => p.1 != key)

/-- Redis `SET key data ttl` as issued by go-redis: a positive ttl sets the
backend expiry to `now + ttl`; a non-positive ttl stores without expiry. -/
def redisSet (db : RedisDB) (now : Int) (key : String) (d : RawData) (ttl : Int) : RedisDB :=
  (key, { data := d, expireAt := if 0 < ttl then some (now + ttl) else none }) :: redisDel db key

/-- Redis `EXPIRE key ttl`: reports `true` and rewrites the backend expiry
when the key exists, reports `false` otherwise.  The stored bytes are
untouched. -/
def redisExpire (db : RedisDB) (now : Int) (key : String) (ttl : Int) : Bool × RedisDB :=
  match redisEntry? db now key with
  | none => (false, db)
  | some e => (true, (key, { data := e.data, expireAt := some (now + ttl) }) :: redisDel db key)

/-- Failure flags for the backend round trips a façade call may perform:
`true` means that transport-level call fails. -/
structure Transport where
  getFails : Bool
  setFails : Bool
  delFails : Bool
  execFails : Bool
  mgetFails : Bool
  expireFails : Bool
deriving Repr, DecidableEq

/-- A fully healthy transport: no backend call fails. -/
def noFail : Transport :=
  { getFails := false, setFails := false, delFails := false,
    execFails := false, mgetFails := false, expireFails := false }

/-- The error kinds distinguished by the façade contract. -/
inductive CacheError where
  | serializationError : String → CacheError
  | backendError : String → CacheError
  | notFoundError : String → CacheError
deriving Repr, DecidableEq

namespace RedisCache

/-- Embedding of `RedisCache.Delete`: Redis `DEL`, idempotent; fails only on transport
failure. -/
def Delete (tr : Transport) (db : RedisDB) (key : String) :
    Except CacheError Unit × RedisDB :=
  if tr.delFails then (.error (.backendError "failed to delete cache item"), db)
  else (.ok (), redisDel db key)

/-- Embedding of `RedisCache.Set`: builds a fresh `CacheItem`, marshals it, and writes it
with the same ttl as the backend expiration hint. -/
def Set (tr : Transport) (db : RedisDB) (now : Int) (key : String)
    (value : GoValue) (ttl : Int) : Except CacheError Unit × RedisDB :=
  match jsonMarshal (NewCacheItem key value ttl now) with
  | none => (.error (.serializationError "failed to marshal cache item"), db)
  | some d =>
    if tr.setFails then (.error (.backendError "failed to set cache item"), db)
    else (.ok (), redisSet db now key d ttl)

/-- Embedding of `RedisCache.Get`: a backend miss is `ok none`; unmarshal failure is an
error; an item found expired triggers a best-effort `Delete` whose outcome is
discarded (`_ = rc.Delete(ctx, key)`) and yields `ok none`. -/
def Get (tr : Transport) (db : RedisDB) (now : Int) (key : String) :
    Except CacheError (Option CacheItem) × RedisDB :=
  if tr.getFails then (.error (.backendError "failed to get cache item"), db)
  else
    match redisLookup db now key with
    | none => (.ok none, db)
    | some d =>
      match jsonUnmarshal d with
      | none => (.error (.backendError "failed to unmarshal cache item"), db)
      | some ci =>
        if ci.IsExpired now then (.ok none, (Delete tr db key).2)
        else (.ok (some ci), db)

/-- The pipelined `SET` commands `RedisCache.SetMultiple` queues: each item is
marshalled, and an item whose marshalling fails is skipped (`continue`). -/
def pipelineCmds (items : List (String × CacheItem)) : List (String × RawData × Int) :=
  items.filterMap (fun kv =>
    match jsonMarshal kv.2 with
    | none => none
    | some d => some (kv.1, d, kv.2.TTL))

/-- Executing the queued pipeline commands against the store in order. -/
def applyCmds (db : RedisDB) (now : Int) (cmds : List (String × RawData × Int)) : RedisDB :=
  cmds.foldl (fun d c => redisSet d now c.1 c.2.1 c.2.2) db

/-- Embedding of `RedisCache.SetMultiple`: queues the marshallable items and executes the
pipeline; a transport failure of `pipe.Exec` fails the whole call. -/
def SetMultiple (tr : Transport) (db : RedisDB) (now : Int)
    (items : List (String × CacheItem)) : Except CacheError Unit × RedisDB :=
  if tr.execFails then (.error (.backendError "failed to set multiple cache items"), db)
  else (.ok (), applyCmds db now (pipelineCmds items))

/-- The per-key scan `RedisCache.GetMultiple` performs on the `MGET` results:
a miss, bytes that fail to unmarshal, and an item found expired all produce
nothing for that key. -/
def mgetScan (db : RedisDB) (now : Int) (k : String) : Option (String × CacheItem) :=
  match redisLookup db now k with
  | none => none
  | some d =>
    match jsonUnmarshal d with
    | none => none
    | some ci => if ci.IsExpired now then none else some (k, ci)

/-- The result mapping `RedisCache.GetMultiple` assembles. -/
def mgetItems (db : RedisDB) (now : Int) (keys : List String) :
    List (String × CacheItem) :=
  keys.filterMap (mgetScan db now)

/-- Whether `RedisCache.GetMultiple` finds the item under `k` expired and so
spawns a detached cleanup delete for it. -/
def expiredIn (db : RedisDB) (now : Int) (k : String) : Bool :=
  match redisLookup db now k with
  | none => false
  | some d =>
    match jsonUnmarshal d with
    | none => false
    | some ci => ci.IsExpired now

/-- The effect on the store of the detached cleanup goroutines spawned by
`RedisCache.GetMultiple` for the expired keys it found. -/
def cleanupExpired (tr : Transport) (db : RedisDB) (now : Int) (keys : List String) : RedisDB :=
  (keys.filter (expiredIn db now)).foldl (fun d k => (Delete tr d k).2) db

/-- The outcome of a `RedisCache.GetMultiple` call; `backendCalled` records
whether any backend round trip was issued. -/
structure MGetResult where
  result : Except CacheError (List (String × CacheItem))
  db : RedisDB
  backendCalled : Bool
deriving Repr

/-- Embedding of `RedisCache.GetMultiple`: an empty key list returns an empty mapping with
no backend call; otherwise one `MGET`, whose transport failure fails the
call; per-key misses, unmarshal failures and expired items are skipped, the
expired ones triggering detached cleanup deletes. -/
def GetMultiple (tr : Transport) (db : RedisDB) (now : Int) (keys : List String) :
    MGetResult :=
  if keys = [] then { result := .ok [], db := db, backendCalled := false }
  else if tr.mgetFails then
    { result := .error (.backendError "failed to get multiple cache items"),
      db := db, backendCalled := true }
  else
    { result := .ok (mgetItems db now keys),
      db := cleanupExpired tr db now keys, backendCalled := true }

/-- Embedding of `RedisCache.Expire`: Redis `EXPIRE`; a transport failure is a backend
error, a `false` reply (key does not exist) is reported as its own error
kind, distinct from backend failures. -/
def Expire (tr : Transport) (db : RedisDB) (now : Int) (key : String) (ttl : Int) :
    Except CacheError Unit × RedisDB :=
  if tr.expireFails then (.error (.backendError "failed to set expiration"), db)
  else
    match redisExpire db now key ttl with
    | (false, db2) => (.error (.notFoundError key), db2)
    | (true, db2) => (.ok (), db2)

end RedisCache

/-- Nanoseconds in `1 * time.Hour`. -/
def nsPerHour : Int := 3600 * 1000000000

/-- The `ttl` field of a store request as seen by the handlers: either
omitted/empty, or a duration string that parses to `d` nanoseconds (a string
that fails to parse is rejected with a 400 before the façade is called). -/
inductive TTLField where
  | empty : TTLField
  | dur : Int → TTLField
deriving Repr, DecidableEq

/-- The TTL-defaulting of `CacheHandler.SetItem` and `CacheHandler.SetMultiple`:
`ttl := 1 * time.Hour`, overridden only when the request carries a non-empty
ttl string. -/
def resolveTTL : TTLField → Int
  | .empty => nsPerHour
  | .dur d => d

/-- Embedding of `CacheHandler.SetItem`: resolves the request ttl and calls the façade
`Set`. -/
def handlerSetItem (tr : Transport) (db : RedisDB) (now : Int) (key : String)
    (value : GoValue) (f : TTLField) : Except CacheError Unit × RedisDB :=
  RedisCache.Set tr db now key value (resolveTTL f)

/-- The item map `CacheHandler.SetMultiple` builds from the request body:
one `NewCacheItem` per entry, each with its resolved ttl. -/
def buildBatchItems (now : Int) (reqs : List (String × GoValue × TTLField)) :
    List (String × CacheItem) :=
  reqs.map (fun r => (r.1, NewCacheItem r.1 r.2.1 (resolveTTL r.2.2) now))

/-- Embedding of `CacheHandler.SetMultiple`: builds the items and calls the façade
`SetMultiple`. -/
def handlerSetMultiple (tr : Transport) (db : RedisDB) (now : Int)
    (reqs : List (String × GoValue × TTLField)) : Except CacheError Unit × RedisDB :=
  RedisCache.SetMultiple tr db now (buildBatchItems now reqs)

/-- A transport whose delete round trip fails. -/
def delFailTr : Transport :=
  { getFails := false, setFails := false, delFails := true,
    execFails := false, mgetFails := false, expireFails := false }

/-- A concrete item that is expired at time 5. -/
def itemExp : CacheItem :=
  { Key := "k", Value := GoValue.vstr "v", TTL := 1, CreatedAt := 0, ExpiresAt := 1 }

/-- A store holding the expired item under "k" with no backend expiry. -/
def dbExp : RedisDB := [("k", { data := RawData.enc itemExp, expireAt := none })]

/-- A concrete item live until time 10. -/
def itemLive : CacheItem :=
  { Key := "k", Value := GoValue.vstr "v", TTL := 10, CreatedAt := 0, ExpiresAt := 10 }

/-- The entry storing `itemLive` with no backend expiry. -/
def entryLive : RedisEntry := { data := RawData.enc itemLive, expireAt := none }

/-- A store holding `itemLive` under "k". -/
def dbLive : RedisDB := [("k", entryLive)]

/-- A store holding an item built with ttl 0 at time 0 under "k". -/
def dbZero : RedisDB :=
  [("k", { data := RawData.enc (NewCacheItem "k" (GoValue.vstr "v") 0 0), expireAt := none })]

/-- A batch with one marshallable item and one whose payload cannot be
encoded. -/
def batchItems : List (String × CacheItem) :=
  [("a", { Key := "a", Value := GoValue.vstr "x", TTL := 5, CreatedAt := 0, ExpiresAt := 5 }),
   ("b", { Key := "b", Value := GoValue.vchan 0, TTL := 5, CreatedAt := 0, ExpiresAt := 5 })]

lemma rawFind_cons (k : String) (e : RedisEntry) (db : RedisDB) (k2 : String) :
    rawFind ((k, e) :: db) k2 = if k2 = k then some e else rawFind db k2 := by
  by_cases h : k2 = k
  · subst h
    simp [rawFind, List.find?_cons_of_pos]
  · have hb : ((k, e).1 == k2) = false := by
      simp [Ne.symm h]
    simp [rawFind, List.find?_cons_of_neg, hb, h]

lemma rawFind_redisDel (db : RedisDB) (k k2 : String) :
    rawFind (redisDel db k) k2 = if k2 = k then none else rawFind db k2 := by
  induction db with
  | nil => simp [redisDel, rawFind]
  | cons a l ih =>
    by_cases ha : a.1 = k
    · have : (a.1 != k) = false := by simp [ha]
      simp only [redisDel, List.filter_cons, this, Bool.false_eq_true, if_false]
      rw [← redisDel]
      rw [ih]
      by_cases h2 : k2 = k
      · simp [h2]
      · have hb : (a.1 == k2) = false := by
          simp [ha]; intro hc; exact h2 (hc ▸ ha ▸ rfl)
        simp [h2, rawFind, List.find?_cons_of_neg, hb]
    · have : (a.1 != k) = true := by simp [ha]
      simp only [redisDel, List.filter_cons, this, if_true]
      rw [← redisDel]
      rcases a with ⟨ak, ae⟩
      rw [rawFind_cons, ih, rawFind_cons]
      by_cases h2 : k2 = ak
      · subst h2
        simp at ha
        simp [ha]
      · simp [h2]

lemma rawFind_redisSet (db : RedisDB) (now : Int) (k : String) (d : RawData) (ttl : Int)
    (k2 : String) :
    rawFind (redisSet db now k d ttl) k2 =
      if k2 = k then some { data := d, expireAt := if 0 < ttl then some (now + ttl) else none }
      else rawFind db k2 := by
  rw [redisSet, rawFind_cons, rawFind_redisDel]
  by_cases h : k2 = k <;> simp [h]

lemma applyCmds_nil (db : RedisDB) (now : Int) : RedisCache.applyCmds db now [] = db := rfl

lemma applyCmds_cons (db : RedisDB) (now : Int) (c : String × RawData × Int)
    (cs : List (String × RawData × Int)) :
    RedisCache.applyCmds db now (c :: cs)
      = RedisCache.applyCmds (redisSet db now c.1 c.2.1 c.2.2) now cs := rfl

lemma rawFind_applyCmds_of_not_mem (now : Int) (cmds : List (String × RawData × Int))
    (k : String) (h : ∀ c ∈ cmds, c.1 ≠ k) :
    ∀ db : RedisDB, rawFind (RedisCache.applyCmds db now cmds) k = rawFind db k := by
  induction cmds with
  | nil => intro db; rfl
  | cons c cs ih =>
    intro db
    rw [applyCmds_cons, ih (fun c2 hc2 => h c2 (List.mem_cons_of_mem _ hc2))]
    rw [rawFind_redisSet]
    have hc : c.1 ≠ k := h c (List.mem_cons_self _ _)
    rw [if_neg (fun hk : k = c.1 => hc hk.symm)]

lemma pipelineCmds_keys (items : List (String × CacheItem)) :
    ∀ c ∈ RedisCache.pipelineCmds items, c.1 ∈ items.map Prod.fst := by
  intro c hc
  rcases List.mem_filterMap.mp hc with ⟨a, ha, hfa⟩
  have : c.1 = a.1 := by
    unfold jsonMarshal at hfa
    by_cases hs : a.2.Value.serializable = true <;> simp [hs] at hfa
    rw [← hfa]
  rw [this]
  exact List.mem_map_of_mem Prod.fst ha

lemma rawFind_setMultiple (now : Int) (items : List (String × CacheItem)) (k : String)
    (it : CacheItem) (hnd : (items.map Prod.fst).Nodup) (hmem : (k, it) ∈ items) :
    ∀ db : RedisDB,
      (it.Value.serializable = true →
        rawFind (RedisCache.applyCmds db now (RedisCache.pipelineCmds items)) k
          = some { data := RawData.enc it,
                   expireAt := if 0 < it.TTL then some (now + it.TTL) else none })
      ∧ (it.Value.serializable = false →
        rawFind (RedisCache.applyCmds db now (RedisCache.pipelineCmds items)) k
          = rawFind db k) := by
  induction items with
  | nil => cases hmem
  | cons a rest ih =>
    intro db
    have hnd2 := List.nodup_cons.mp hnd
    rcases List.mem_cons.mp hmem with heq | hrest
    · have hk : a.1 = k := by rw [← heq]
      have hit : a.2 = it := by rw [← heq]
      have hknotin : k ∉ rest.map Prod.fst := hk ▸ hnd2.1
      have hnone : ∀ c ∈ RedisCache.pipelineCmds rest, c.1 ≠ k := fun c hc hck =>
        hknotin (hck ▸ pipelineCmds_keys rest c hc)
      constructor
      · intro hser
        have hm : jsonMarshal a.2 = some (RawData.enc it) := by
          rw [hit]; simp [jsonMarshal, hser]
        have hpc : RedisCache.pipelineCmds (a :: rest)
            = (a.1, RawData.enc it, a.2.TTL) :: RedisCache.pipelineCmds rest := by
          simp [RedisCache.pipelineCmds, List.filterMap_cons, hm]
        rw [hpc, applyCmds_cons, rawFind_applyCmds_of_not_mem now _ k hnone, rawFind_redisSet,
          if_pos hk.symm, hit]
      · intro hser
        have hm : jsonMarshal a.2 = none := by
          rw [hit]; simp [jsonMarshal, hser]
        have hpc : RedisCache.pipelineCmds (a :: rest) = RedisCache.pipelineCmds rest := by
          simp [RedisCache.pipelineCmds, List.filterMap_cons, hm]
        rw [hpc, rawFind_applyCmds_of_not_mem now _ k hnone]
    · have hkin : k ∈ rest.map Prod.fst := List.mem_map_of_mem Prod.fst hrest
      have hak : a.1 ≠ k := fun h => hnd2.1 (h ▸ hkin)
      have ihr := ih hnd2.2 hrest
      cases hm : jsonMarshal a.2 with
      | some d =>
        have hpc : RedisCache.pipelineCmds (a :: rest)
            = (a.1, d, a.2.TTL) :: RedisCache.pipelineCmds rest := by
          simp [RedisCache.pipelineCmds, List.filterMap_cons, hm]
        rw [hpc, applyCmds_cons]
        have hstep := ihr (redisSet db now a.1 d a.2.TTL)
        refine ⟨hstep.1, ?_⟩
        intro hser
        rw [hstep.2 hser, rawFind_redisSet, if_neg (fun h : k = a.1 => hak h.symm)]
      | none =>
        have hpc : RedisCache.pipelineCmds (a :: rest) = RedisCache.pipelineCmds rest := by
          simp [RedisCache.pipelineCmds, List.filterMap_cons, hm]
        rw [hpc]
        exact ihr db

lemma mgetScan_fst (db : RedisDB) (now : Int) (a k : String) (ci : CacheItem)
    (h : RedisCache.mgetScan db now a = some (k, ci)) : a = k := by
  unfold RedisCache.mgetScan at h
  split at h
  · cases h
  · split at h
    · cases h
    · split at h
      · cases h
      · injection h with h2
        rw [Prod.mk.injEq] at h2
        exact h2.1

lemma not_mem_mgetItems (db : RedisDB) (now : Int) (keys : List String) (k : String)
    (h : RedisCache.mgetScan db now k = none) :
    ∀ ci : CacheItem, (k, ci) ∉ RedisCache.mgetItems db now keys := by
  intro ci hmem
  rcases List.mem_filterMap.mp hmem with ⟨a, _, ha⟩
  rw [mgetScan_fst db now a k ci ha] at ha
  rw [h] at ha
  cases ha

lemma mgetScan_none_of_miss (db : RedisDB) (now : Int) (k : String)
    (h : redisLookup db now k = none) : RedisCache.mgetScan db now k = none := by
  unfold RedisCache.mgetScan
  rw [h]

lemma mgetScan_none_of_junk (db : RedisDB) (now : Int) (k : String) (s : String)
    (h : redisLookup db now k = some (RawData.junk s)) :
    RedisCache.mgetScan db now k = none := by
  unfold RedisCache.mgetScan
  rw [h]
  rfl

lemma mgetScan_none_of_expired (db : RedisDB) (now : Int) (k : String) (ci : CacheItem)
    (h : redisLookup db now k = some (RawData.enc ci)) (he : ci.IsExpired now = true) :
    RedisCache.mgetScan db now k = none := by
  unfold RedisCache.mgetScan
  rw [h]
  simp [jsonUnmarshal, he]

lemma get_expired_eval (tr : Transport) (db : RedisDB) (now : Int) (key : String)
    (ci : CacheItem) (hget : tr.getFails = false)
    (hfound : redisLookup db now key = some (RawData.enc ci))
    (hexp : ci.IsExpired now = true) :
    RedisCache.Get tr db now key = (Except.ok none, (RedisCache.Delete tr db key).2) := by
  simp [RedisCache.Get, hget, hfound, jsonUnmarshal, hexp]

lemma redisLookup_redisSet_self (db : RedisDB) (now : Int) (key : String) (d : RawData)
    (ttl : Int) (h : 0 < ttl) :
    redisLookup (redisSet db now key d ttl) now key = some d := by
  unfold redisLookup redisEntry?
  rw [rawFind_redisSet, if_pos rfl, if_pos h]
  have halive : RedisEntry.alive { data := d, expireAt := some (now + ttl) } now = true := by
    simp [RedisEntry.alive]
    omega
  simp [halive]

lemma get_live_eval (tr : Transport) (db : RedisDB) (now : Int) (key : String)
    (ci : CacheItem) (hget : tr.getFails = false)
    (hfound : redisLookup db now key = some (RawData.enc ci))
    (hexp : ci.IsExpired now = false) :
    RedisCache.Get tr db now key = (Except.ok (some ci), db) := by
  simp [RedisCache.Get, hget, hfound, jsonUnmarshal, hexp]

/-- C1: for every key, value and ttl with ttl > 0, `get(key)` immediately
after `set(key, value, ttl)` succeeds and returns an item whose `key` and
`value` are the ones passed to `set` and whose `isExpired` is false. -/
theorem set_get_roundtrip (db : RedisDB) (now : Int) (key : String) (v : GoValue) (ttl : Int)
    (hser : v.serializable = true) (httl : 0 < ttl) :
    (RedisCache.Set noFail db now key v ttl).1 = Except.ok ()
    ∧ ∃ item : CacheItem,
        (RedisCache.Get noFail (RedisCache.Set noFail db now key v ttl).2 now key).1
          = Except.ok (some item)
        ∧ item.Key = key ∧ item.Value = v ∧ item.IsExpired now = false := by
  have hm : jsonMarshal (NewCacheItem key v ttl now)
      = some (RawData.enc (NewCacheItem key v ttl now)) := by
    simp [jsonMarshal, NewCacheItem, hser]
  have hset : RedisCache.Set noFail db now key v ttl
      = (Except.ok (), redisSet db now key (RawData.enc (NewCacheItem key v ttl now)) ttl) := by
    simp [RedisCache.Set, hm, noFail]
  have hexp : (NewCacheItem key v ttl now).IsExpired now = false := by
    simp [NewCacheItem, CacheItem.IsExpired]
    omega
  refine ⟨by rw [hset], ⟨NewCacheItem key v ttl now, ?_, rfl, rfl, hexp⟩⟩
  rw [hset]
  rw [get_live_eval noFail _ now key (NewCacheItem key v ttl now) rfl
    (redisLookup_redisSet_self db now key (RawData.enc (NewCacheItem key v ttl now)) ttl httl)
    hexp]

/-- Witness for C1 at key "k", value "v", ttl 5 ns. -/
theorem set_get_roundtrip_witness :
    (GoValue.vstr "v").serializable = true ∧ (0 : Int) < 5
    ∧ ((RedisCache.Set noFail [] 0 "k" (GoValue.vstr "v") 5).1 = Except.ok ()
       ∧ ∃ item : CacheItem,
           (RedisCache.Get noFail (RedisCache.Set noFail [] 0 "k" (GoValue.vstr "v") 5).2 0 "k").1
             = Except.ok (some item)
           ∧ item.Key = "k" ∧ item.Value = GoValue.vstr "v" ∧ item.IsExpired 0 = false) :=
  ⟨rfl, by decide, set_get_roundtrip [] 0 "k" (GoValue.vstr "v") 5 rfl (by decide)⟩

/-- C3: a key whose stored bytes deserialize to an item expired at read time
makes `get` issue a best-effort delete, return "no item" with no error, and
a failing cleanup delete is never propagated (the result is `ok none` for
either value of the delete-transport flag). -/
theorem get_expired_lazy_cleanup (tr : Transport) (db : RedisDB) (now : Int) (key : String)
    (ci : CacheItem) (hget : tr.getFails = false)
    (hfound : redisLookup db now key = some (RawData.enc ci))
    (hexp : ci.IsExpired now = true) :
    (RedisCache.Get tr db now key).1 = Except.ok none
    ∧ (tr.delFails = false → (RedisCache.Get tr db now key).2 = redisDel db key)
    ∧ (tr.delFails = true → (RedisCache.Get tr db now key).2 = db) := by
  have h := get_expired_eval tr db now key ci hget hfound hexp
  refine ⟨by rw [h], ?_, ?_⟩
  · intro hd
    rw [h]
    simp [RedisCache.Delete, hd]
  · intro hd
    rw [h]
    simp [RedisCache.Delete, hd]

/-- Witness for C3: the expired item read at time 5 under a failing delete
transport. -/
theorem get_expired_lazy_cleanup_witness :
    delFailTr.getFails = false
    ∧ redisLookup dbExp 5 "k" = some (RawData.enc itemExp)
    ∧ itemExp.IsExpired 5 = true
    ∧ ((RedisCache.Get delFailTr dbExp 5 "k").1 = Except.ok none
       ∧ (delFailTr.delFails = false → (RedisCache.Get delFailTr dbExp 5 "k").2 = redisDel dbExp "k")
       ∧ (delFailTr.delFails = true → (RedisCache.Get delFailTr dbExp 5 "k").2 = dbExp)) :=
  ⟨rfl, rfl, rfl, get_expired_lazy_cleanup delFailTr dbExp 5 "k" itemExp rfl rfl rfl⟩

/-- C6: a key absent from the backing store makes `get` return "no item"
with no error, a result distinguishable from every error kind. -/
theorem get_miss_is_not_error (tr : Transport) (db : RedisDB) (now : Int) (key : String)
    (hget : tr.getFails = false) (habs : redisLookup db now key = none) :
    RedisCache.Get tr db now key = (Except.ok none, db)
    ∧ ∀ e : CacheError,
        (Except.ok (none : Option CacheItem) : Except CacheError (Option CacheItem))
          ≠ Except.error e :=
  ⟨by simp [RedisCache.Get, hget, habs], fun e h => Except.noConfusion h⟩

/-- Witness for C6 on the empty store. -/
theorem get_miss_is_not_error_witness :
    noFail.getFails = false ∧ redisLookup [] 0 "k" = none
    ∧ (RedisCache.Get noFail [] 0 "k" = (Except.ok none, [])
       ∧ ∀ e : CacheError,
           (Except.ok (none : Option CacheItem) : Except CacheError (Option CacheItem))
             ≠ Except.error e) :=
  ⟨rfl, rfl, get_miss_is_not_error noFail [] 0 "k" rfl rfl⟩

/-- C9: `remainingTTL` is exactly `max 0 (expiresAt - now)` and never
negative. -/
theorem remainingTTL_is_clamped (ci : CacheItem) (now : Int) :
    ci.RemainingTTL now = max 0 (ci.ExpiresAt - now) ∧ 0 ≤ ci.RemainingTTL now := by
  constructor
  · unfold CacheItem.RemainingTTL CacheItem.IsExpired
    by_cases h : ci.ExpiresAt < now
    · simp [h]
      omega
    · simp [h]
      omega
  · unfold CacheItem.RemainingTTL CacheItem.IsExpired
    by_cases h : ci.ExpiresAt < now
    · simp [h]
    · simp [h]
      omega

/-- Counterexample to C2 as stated: set "k" with ttl 10 at time 0, then
expire "k" with ttl 100 at time 0.  The stored item still carries
`expiresAt = 10`, not `now + ttl = 100`, and a read at time 50 (while the
backend still holds the key, its backend expiry being 100) judges the item
expired against the old `expiresAt` and returns "no item". -/
theorem expire_leaves_stored_expiresAt :
    redisLookup
        (RedisCache.Expire noFail (RedisCache.Set noFail [] 0 "k" (GoValue.vstr "v") 10).2
          0 "k" 100).2 0 "k"
      = some (RawData.enc (NewCacheItem "k" (GoValue.vstr "v") 10 0))
    ∧ (NewCacheItem "k" (GoValue.vstr "v") 10 0).ExpiresAt = 10
    ∧ ((0 : Int) + 100 ≠ 10)
    ∧ (RedisCache.Get noFail
        (RedisCache.Expire noFail (RedisCache.Set noFail [] 0 "k" (GoValue.vstr "v") 10).2
          0 "k" 100).2 50 "k").1 = Except.ok none :=
  ⟨rfl, rfl, by decide, rfl⟩

/-- C2 amended: `expire(key, ttl)` only rewrites the backend-level expiry to
`now + ttl`; the stored item bytes (hence both `createdAt` and `expiresAt`)
are unaltered, for the rewritten key and for every other key, and a
subsequent read, while the backend still holds the key, judges expiration
against the original item `expiresAt`. -/
theorem expire_rewrites_backend_expiry_only (tr : Transport) (db : RedisDB)
    (now ttl : Int) (key : String) (e : RedisEntry)
    (hok : tr.expireFails = false) (halive : redisEntry? db now key = some e) :
    (RedisCache.Expire tr db now key ttl).1 = Except.ok ()
    ∧ rawFind (RedisCache.Expire tr db now key ttl).2 key
        = some { data := e.data, expireAt := some (now + ttl) }
    ∧ (∀ k2, k2 ≠ key → rawFind (RedisCache.Expire tr db now key ttl).2 k2 = rawFind db k2)
    ∧ (∀ ci now2, e.data = RawData.enc ci → tr.getFails = false → now2 < now + ttl →
        (RedisCache.Get tr (RedisCache.Expire tr db now key ttl).2 now2 key).1
          = if ci.IsExpired now2 then Except.ok none else Except.ok (some ci)) := by
  have hexp : RedisCache.Expire tr db now key ttl
      = (Except.ok (), (key, { data := e.data, expireAt := some (now + ttl) }) :: redisDel db key) := by
    simp [RedisCache.Expire, hok, redisExpire, halive]
  refine ⟨by rw [hexp], ?_, ?_, ?_⟩
  · rw [hexp, rawFind_cons, if_pos rfl]
  · intro k2 hk2
    rw [hexp, rawFind_cons, if_neg hk2, rawFind_redisDel, if_neg hk2]
  · intro ci now2 hdata hget hlt
    have hlook : redisLookup (RedisCache.Expire tr db now key ttl).2 now2 key
        = some (RawData.enc ci) := by
      rw [hexp]
      unfold redisLookup redisEntry?
      rw [rawFind_cons, if_pos rfl]
      have halive2 : RedisEntry.alive { data := RawData.enc ci, expireAt := some (now + ttl) } now2
          = true := by
        simp [RedisEntry.alive]
        omega
      simp [halive2, hdata]
    by_cases he : ci.IsExpired now2
    · rw [if_pos he, (get_expired_eval tr _ now2 key ci hget hlook he)]
    · rw [if_neg he, (get_live_eval tr _ now2 key ci hget hlook (Bool.eq_false_iff.mpr he))]

/-- Witness for the amended C2 on `dbLive` at time 0 with new ttl 100. -/
theorem expire_rewrites_backend_expiry_only_witness :
    noFail.expireFails = false
    ∧ redisEntry? dbLive 0 "k" = some entryLive
    ∧ ((RedisCache.Expire noFail dbLive 0 "k" 100).1 = Except.ok ()
       ∧ rawFind (RedisCache.Expire noFail dbLive 0 "k" 100).2 "k"
           = some { data := entryLive.data, expireAt := some (0 + 100) }
       ∧ (∀ k2, k2 ≠ "k" →
            rawFind (RedisCache.Expire noFail dbLive 0 "k" 100).2 k2 = rawFind dbLive k2)
       ∧ (∀ ci now2, entryLive.data = RawData.enc ci → noFail.getFails = false →
            now2 < 0 + 100 →
            (RedisCache.Get noFail (RedisCache.Expire noFail dbLive 0 "k" 100).2 now2 "k").1
              = if ci.IsExpired now2 then Except.ok none else Except.ok (some ci))) :=
  ⟨rfl, rfl, expire_rewrites_backend_expiry_only noFail dbLive 0 100 "k" entryLive rfl rfl⟩

/-- C7: `expire` on a key the backend does not hold fails with the
not-found error kind, which is distinct from every backend error; on an
existing key it succeeds. -/
theorem expire_missing_key_notfound (tr : Transport) (db : RedisDB) (now ttl : Int)
    (key : String) (hok : tr.expireFails = false) :
    (redisEntry? db now key = none →
      (RedisCache.Expire tr db now key ttl).1 = Except.error (CacheError.notFoundError key)
      ∧ ∀ s, CacheError.notFoundError key ≠ CacheError.backendError s)
    ∧ (∀ e, redisEntry? db now key = some e →
        (RedisCache.Expire tr db now key ttl).1 = Except.ok ()) := by
  constructor
  · intro habs
    refine ⟨by simp [RedisCache.Expire, hok, redisExpire, habs], ?_⟩
    intro s h
    cases h
  · intro e he
    simp [RedisCache.Expire, hok, redisExpire, he]

/-- Witness for C7 on `dbLive` (existing key "k", missing key "m"). -/
theorem expire_missing_key_notfound_witness :
    noFail.expireFails = false
    ∧ ((redisEntry? dbLive 0 "m" = none →
         (RedisCache.Expire noFail dbLive 0 "m" 7).1 = Except.error (CacheError.notFoundError "m")
         ∧ ∀ s, CacheError.notFoundError "m" ≠ CacheError.backendError s)
       ∧ (∀ e, redisEntry? dbLive 0 "m" = some e →
           (RedisCache.Expire noFail dbLive 0 "m" 7).1 = Except.ok ()))
    ∧ ((redisEntry? dbLive 0 "k" = none →
         (RedisCache.Expire noFail dbLive 0 "k" 7).1 = Except.error (CacheError.notFoundError "k")
         ∧ ∀ s, CacheError.notFoundError "k" ≠ CacheError.backendError s)
       ∧ (∀ e, redisEntry? dbLive 0 "k" = some e →
           (RedisCache.Expire noFail dbLive 0 "k" 7).1 = Except.ok ())) :=
  ⟨rfl, expire_missing_key_notfound noFail dbLive 0 7 "m" rfl,
    expire_missing_key_notfound noFail dbLive 0 7 "k" rfl⟩

/-- Counterexample to C8 as stated: an item built with ttl = 0 at time 0 is
not treated as expired at the creation instant itself — `isExpired` is false
and `get` returns the item, not "no item". -/
theorem ttl_zero_live_at_creation_instant :
    (NewCacheItem "k" (GoValue.vstr "v") 0 0).IsExpired 0 = false
    ∧ (RedisCache.Get noFail (RedisCache.Set noFail [] 0 "k" (GoValue.vstr "v") 0).2 0 "k").1
        = Except.ok (some (NewCacheItem "k" (GoValue.vstr "v") 0 0)) :=
  ⟨rfl, rfl⟩

/-- C8 amended: ttl ≤ 0 gives `expiresAt ≤ createdAt`, and at every time
strictly after creation the item is expired and both read paths report no
item for it; at the creation instant itself the item counts as expired only
when ttl < 0, expiration being strict (`now > expiresAt`). -/
theorem nonpositive_ttl_expired_strictly_after (key : String) (v : GoValue) (ttl t0 now : Int)
    (tr : Transport) (db : RedisDB) (keys : List String)
    (httl : ttl ≤ 0) (hnow : t0 < now) (hget : tr.getFails = false)
    (hstored : redisLookup db now key = some (RawData.enc (NewCacheItem key v ttl t0))) :
    (NewCacheItem key v ttl t0).ExpiresAt ≤ (NewCacheItem key v ttl t0).CreatedAt
    ∧ (NewCacheItem key v ttl t0).IsExpired now = true
    ∧ (RedisCache.Get tr db now key).1 = Except.ok none
    ∧ ∀ (ci : CacheItem) (res : List (String × CacheItem)),
        (RedisCache.GetMultiple tr db now keys).result = Except.ok res → (key, ci) ∉ res := by
  have hexp : (NewCacheItem key v ttl t0).IsExpired now = true := by
    simp [NewCacheItem, CacheItem.IsExpired]
    omega
  refine ⟨?_, hexp, ?_, ?_⟩
  · simp [NewCacheItem]
    omega
  · rw [get_expired_eval tr db now key _ hget hstored hexp]
  · intro ci res hres hmem
    unfold RedisCache.GetMultiple at hres
    split at hres
    · simp only [] at hres
      rw [Except.ok.injEq] at hres
      rw [← hres] at hmem
      cases hmem
    · split at hres
      · simp at hres
      · simp only [] at hres
        rw [Except.ok.injEq] at hres
        rw [← hres] at hmem
        exact not_mem_mgetItems db now keys key
          (mgetScan_none_of_expired db now key _ hstored hexp) ci hmem

/-- Witness for the amended C8: the ttl-0 item read at time 1. -/
theorem nonpositive_ttl_expired_strictly_after_witness :
    (0 : Int) ≤ 0 ∧ (0 : Int) < 1 ∧ noFail.getFails = false
    ∧ redisLookup dbZero 1 "k" = some (RawData.enc (NewCacheItem "k" (GoValue.vstr "v") 0 0))
    ∧ ((NewCacheItem "k" (GoValue.vstr "v") 0 0).ExpiresAt
         ≤ (NewCacheItem "k" (GoValue.vstr "v") 0 0).CreatedAt
       ∧ (NewCacheItem "k" (GoValue.vstr "v") 0 0).IsExpired 1 = true
       ∧ (RedisCache.Get noFail dbZero 1 "k").1 = Except.ok none
       ∧ ∀ (ci : CacheItem) (res : List (String × CacheItem)),
           (RedisCache.GetMultiple noFail dbZero 1 ["k"]).result = Except.ok res
           → ("k", ci) ∉ res) :=
  ⟨by decide, by decide, rfl, rfl,
    nonpositive_ttl_expired_strictly_after "k" (GoValue.vstr "v") 0 0 1 noFail dbZero ["k"]
      (by decide) (by decide) rfl rfl⟩

/-- C4: per-item serialization failures in `setMultiple` skip only that item
while the remaining items are still written and the call succeeds; a
transport failure of the batched exec fails the entire call with a backend
error. -/
theorem setMultiple_partial_skip_vs_backend (tr : Transport) (db : RedisDB) (now : Int)
    (items : List (String × CacheItem)) (hnd : (items.map Prod.fst).Nodup) :
    (tr.execFails = true →
      RedisCache.SetMultiple tr db now items
        = (Except.error (CacheError.backendError "failed to set multiple cache items"), db))
    ∧ (tr.execFails = false →
      (RedisCache.SetMultiple tr db now items).1 = Except.ok ()
      ∧ ∀ k it, (k, it) ∈ items →
          (it.Value.serializable = true →
            rawFind (RedisCache.SetMultiple tr db now items).2 k
              = some { data := RawData.enc it,
                       expireAt := if 0 < it.TTL then some (now + it.TTL) else none })
          ∧ (it.Value.serializable = false →
            rawFind (RedisCache.SetMultiple tr db now items).2 k = rawFind db k)) := by
  constructor
  · intro hf
    simp [RedisCache.SetMultiple, hf]
  · intro hf
    refine ⟨by simp [RedisCache.SetMultiple, hf], ?_⟩
    intro k it hmem
    have hsm : (RedisCache.SetMultiple tr db now items).2
        = RedisCache.applyCmds db now (RedisCache.pipelineCmds items) := by
      simp [RedisCache.SetMultiple, hf]
    rw [hsm]
    exact rawFind_setMultiple now items k it hnd hmem db

/-- Witness for C4 on `batchItems` against the empty store. -/
theorem setMultiple_partial_skip_vs_backend_witness :
    (batchItems.map Prod.fst).Nodup
    ∧ ((noFail.execFails = true →
         RedisCache.SetMultiple noFail [] 0 batchItems
           = (Except.error (CacheError.backendError "failed to set multiple cache items"), []))
       ∧ (noFail.execFails = false →
         (RedisCache.SetMultiple noFail [] 0 batchItems).1 = Except.ok ()
         ∧ ∀ k it, (k, it) ∈ batchItems →
             (it.Value.serializable = true →
               rawFind (RedisCache.SetMultiple noFail [] 0 batchItems).2 k
                 = some { data := RawData.enc it,
                          expireAt := if 0 < it.TTL then some (0 + it.TTL) else none })
             ∧ (it.Value.serializable = false →
               rawFind (RedisCache.SetMultiple noFail [] 0 batchItems).2 k
                 = rawFind [] k))) :=
  ⟨by decide, setMultiple_partial_skip_vs_backend noFail [] 0 batchItems (by decide)⟩

/-- C5: `getMultiple` on an empty key sequence yields an empty mapping with
no backend call, and every requested key that misses, fails to unmarshal, or
is found expired is silently excluded from the successful result. -/
theorem getMultiple_silent_exclusion (tr : Transport) (db : RedisDB) (now : Int)
    (keys : List String) (k : String) (hex : tr.mgetFails = false) :
    (∀ tr2 : Transport,
      (RedisCache.GetMultiple tr2 db now []).result = Except.ok []
      ∧ (RedisCache.GetMultiple tr2 db now []).backendCalled = false)
    ∧ ((redisLookup db now k = none
        ∨ (∃ s, redisLookup db now k = some (RawData.junk s))
        ∨ (∃ ci, redisLookup db now k = some (RawData.enc ci) ∧ ci.IsExpired now = true)) →
      ∃ res, (RedisCache.GetMultiple tr db now keys).result = Except.ok res
        ∧ ∀ ci : CacheItem, (k, ci) ∉ res) := by
  constructor
  · intro tr2
    constructor <;> simp [RedisCache.GetMultiple]
  · intro hcase
    have hscan : RedisCache.mgetScan db now k = none := by
      rcases hcase with h | ⟨s, h⟩ | ⟨ci, h, he⟩
      · exact mgetScan_none_of_miss db now k h
      · exact mgetScan_none_of_junk db now k s h
      · exact mgetScan_none_of_expired db now k ci h he
    by_cases hk : keys = []
    · exact ⟨[], by simp [RedisCache.GetMultiple, hk], fun ci h => by cases h⟩
    · refine ⟨RedisCache.mgetItems db now keys, ?_, not_mem_mgetItems db now keys k hscan⟩
      simp [RedisCache.GetMultiple, hk, hex]

/-- Witness for C5 on `dbLive` requesting the stored key "k" and the absent
key "m". -/
theorem getMultiple_silent_exclusion_witness :
    noFail.mgetFails = false
    ∧ ((∀ tr2 : Transport,
         (RedisCache.GetMultiple tr2 dbLive 0 []).result = Except.ok []
         ∧ (RedisCache.GetMultiple tr2 dbLive 0 []).backendCalled = false)
       ∧ ((redisLookup dbLive 0 "m" = none
           ∨ (∃ s, redisLookup dbLive 0 "m" = some (RawData.junk s))
           ∨ (∃ ci, redisLookup dbLive 0 "m" = some (RawData.enc ci) ∧ ci.IsExpired 0 = true)) →
         ∃ res, (RedisCache.GetMultiple noFail dbLive 0 ["m", "k"]).result = Except.ok res
           ∧ ∀ ci : CacheItem, ("m", ci) ∉ res)) :=
  ⟨rfl, getMultiple_silent_exclusion noFail dbLive 0 ["m", "k"] "m" rfl⟩

/-- C10: a store request whose ttl field is omitted or empty is given a
default ttl of exactly one hour before the façade `set` is called, so the
stored item satisfies `expiresAt = createdAt + 1h`; the batch handler
defaults each such entry the same way. -/
theorem default_ttl_is_one_hour (tr : Transport) (db : RedisDB) (now : Int) (key : String)
    (v : GoValue) (hser : v.serializable = true) (hset : tr.setFails = false) :
    resolveTTL TTLField.empty = nsPerHour
    ∧ (handlerSetItem tr db now key v TTLField.empty).1 = Except.ok ()
    ∧ rawFind (handlerSetItem tr db now key v TTLField.empty).2 key
        = some { data := RawData.enc (NewCacheItem key v nsPerHour now),
                 expireAt := some (now + nsPerHour) }
    ∧ (NewCacheItem key v nsPerHour now).ExpiresAt
        = (NewCacheItem key v nsPerHour now).CreatedAt + nsPerHour
    ∧ ∀ (reqs : List (String × GoValue × TTLField)) (k2 : String) (v2 : GoValue),
        (k2, v2, TTLField.empty) ∈ reqs →
        (k2, NewCacheItem k2 v2 nsPerHour now) ∈ buildBatchItems now reqs := by
  have hm : jsonMarshal (NewCacheItem key v nsPerHour now)
      = some (RawData.enc (NewCacheItem key v nsPerHour now)) := by
    simp [jsonMarshal, NewCacheItem, hser]
  have hsi : handlerSetItem tr db now key v TTLField.empty
      = (Except.ok (),
         redisSet db now key (RawData.enc (NewCacheItem key v nsPerHour now)) nsPerHour) := by
    simp [handlerSetItem, resolveTTL, RedisCache.Set, hm, hset]
  refine ⟨rfl, by rw [hsi], ?_, rfl, ?_⟩
  · rw [hsi, rawFind_redisSet, if_pos rfl, if_pos (by decide : (0 : Int) < nsPerHour)]
  · intro reqs k2 v2 hmem
    have h2 : (k2, NewCacheItem k2 v2 (resolveTTL TTLField.empty) now)
        ∈ buildBatchItems now reqs := by
      unfold buildBatchItems
      exact List.mem_map_of_mem _ hmem
    simpa [resolveTTL] using h2

/-- Witness for C10 at key "k", value "v", time 0 on the empty store. -/
theorem default_ttl_is_one_hour_witness :
    (GoValue.vstr "v").serializable = true ∧ noFail.setFails = false
    ∧ (resolveTTL TTLField.empty = nsPerHour
       ∧ (handlerSetItem noFail [] 0 "k" (GoValue.vstr "v") TTLField.empty).1 = Except.ok ()
       ∧ rawFind (handlerSetItem noFail [] 0 "k" (GoValue.vstr "v") TTLField.empty).2 "k"
           = some { data := RawData.enc (NewCacheItem "k" (GoValue.vstr "v") nsPerHour 0),
                    expireAt := some (0 + nsPerHour) }
       ∧ (NewCacheItem "k" (GoValue.vstr "v") nsPerHour 0).ExpiresAt
           = (NewCacheItem "k" (GoValue.vstr "v") nsPerHour 0).CreatedAt + nsPerHour
       ∧ ∀ (reqs : List (String × GoValue × TTLField)) (k2 : String) (v2 : GoValue),
           (k2, v2, TTLField.empty) ∈ reqs →
           (k2, NewCacheItem k2 v2 nsPerHour 0) ∈ buildBatchItems 0 reqs) :=
  ⟨rfl, rfl, default_ttl_is_one_hour noFail [] 0 "k" (GoValue.vstr "v") rfl rfl⟩
